import Mathlib

/-!
Shallow embedding of the retrieval/orchestration core of
`jsonembed/search-collection.py` (class `QueryProcessor`), together with
theorems checking the natural-language specification against it.

External collaborators (the VoyageAI embedding generator, the MongoDB
vector-search store, and the OpenAI chat model) are modelled as oracle
functions bundled in a `World`.  Session state (`self.history`,
`self.last_results`, `self.last_question`, `self.last_filters`) is passed
explicitly.  Calls to the oracles are recorded in a `CallTrace` so that
claims about "no embedding call / no vector-search call" are statable.
-/

/-- A conversation turn, Python dict `{"role": ..., "content": ...}`. -/
structure Turn where
  role : String
  content : String
deriving DecidableEq, Repr

/-- A filter value: a string, or an integer parsed by Python `int(...)`. -/
inductive FVal where
  | str (s : String)
  | num (n : Nat)
deriving DecidableEq, Repr

/-- A list of (field, value) filter pairs. -/
abbrev FilterList := List (String × FVal)

/-- The result of `extract_filters`: Python `None` or a pair
`(filters, is_direct_lookup)`. -/
abbrev Extraction := Option (FilterList × Bool)

/- ---------------------------------------------------------------- -/
/- Python string helpers used by the source (strip / lower / `in`).  -/
/- ---------------------------------------------------------------- -/

/-- Python `str.isspace` on the ASCII whitespace characters. -/
def pyIsSpace (c : Char) : Bool :=
  c == ' ' || c == '\t' || c == '\n' || c == '\x0d' || c == '\x0b' || c == '\x0c'

/-- Python `str.strip()` restricted to ASCII whitespace. -/
def pyStrip (s : String) : String :=
  String.mk (((s.data.dropWhile pyIsSpace).reverse.dropWhile pyIsSpace).reverse)

/-- Python `str.lower()` (ASCII case only). -/
def lowerStr (s : String) : String := String.mk (s.data.map Char.toLower)

/-- Whether `needle` is a leading segment of `hay` (character lists). -/
def leadsChars : List Char → List Char → Bool
  | [], _ => true
  | _ :: _, [] => false
  | a :: as, b :: bs => a == b && leadsChars as bs

/-- Whether `needle` occurs as a contiguous substring of `hay`
(character lists); models Python `needle in hay`. -/
def hasSubstrChars (needle : List Char) : List Char → Bool
  | [] => leadsChars needle []
  | c :: cs => leadsChars needle (c :: cs) || hasSubstrChars needle cs

/-- Python `needle in hay` on strings. -/
def strContains (hay needle : String) : Bool :=
  hasSubstrChars needle.data hay.data

/- ---------------------------------------------------------------- -/
/- Regex search, specialised to the five patterns of the source.     -/
/- ---------------------------------------------------------------- -/

/-- Case-insensitively match the (lowercase) literal `key` at the head of
the input, returning the remaining characters; models the literal part of
a `(?i)` pattern such as `id=` or `country=`. -/
def tryKeyCI : List Char → List Char → Option (List Char)
  | [], rest => some rest
  | _ :: _, [] => none
  | k :: ks, c :: cs => if c.toLower == k then tryKeyCI ks cs else none

/-- The capture group shapes occurring in the source's patterns:
`(\d{8})`, `(\d+)`, and `([^\" ]+)`. -/
inductive CapKind where
  | digitsExact (n : Nat)
  | digitsPlus
  | wordPlus
deriving DecidableEq, Repr

/-- Greedy capture at the current position, per capture-group shape. -/
def capture : CapKind → List Char → Option (List Char)
  | CapKind.digitsExact n, s =>
      let pre := s.take n
      if pre.length == n && pre.all Char.isDigit then some pre else none
  | CapKind.digitsPlus, s =>
      let pre := s.takeWhile Char.isDigit
      if pre.isEmpty then none else some pre
  | CapKind.wordPlus, s =>
      let pre := s.takeWhile (fun c => c != ' ' && c != '"')
      if pre.isEmpty then none else some pre

/-- `re.search` for a pattern `key(capture)`: scan positions left to
right; at each position try the case-insensitive literal `key` followed by
the capture group; return the first successful capture. -/
def reSearch (key : List Char) (k : CapKind) : List Char → Option (List Char)
  | [] => none
  | c :: cs =>
      match tryKeyCI key (c :: cs) with
      | some rest =>
          match capture k rest with
          | some cap => some cap
          | none => reSearch key k cs
      | none => reSearch key k cs

/-- Python `temp.split(",", 1)[0]`: the characters before the first comma. -/
def splitFirstComma (s : List Char) : List Char :=
  s.takeWhile (fun c => c != ',')

/-- `QueryProcessor._split_filters`: search the question for the pattern,
and return the capture truncated at the first comma. -/
def _split_filters (key : String) (k : CapKind) (question : String) : Option String :=
  match reSearch key.data k question.data with
  | some cap => some (String.mk (splitFirstComma cap))
  | none => none

/-- Numeric value of a digit string, Python `int(...)` on `\d+`. -/
def natOfDigits (l : List Char) : Nat :=
  l.foldl (fun acc c => acc * 10 + (c.toNat - 48)) 0

/-- `if match: filters.append((field, match))` for a string-valued field. -/
def addStrFilter (fs : FilterList) (field : String) (m : Option String) : FilterList :=
  match m with
  | some v => fs ++ [(field, FVal.str v)]
  | none => fs

/-- `if match: filters.append((field, int(match)))` for a numeric field. -/
def addNumFilter (fs : FilterList) (field : String) (m : Option String) : FilterList :=
  match m with
  | some v => fs ++ [(field, FVal.num (natOfDigits v.data))]
  | none => fs

/-- `QueryProcessor.extract_filters`: listing id short-circuits with
`is_direct_lookup = true`; otherwise country / market / beds / bedrooms
accumulate; an empty accumulation yields Python `None`. -/
def extract_filters (question : String) : Extraction :=
  match _split_filters "id=" (CapKind.digitsExact 8) question with
  | some m => some ([("_id", FVal.str m)], true)
  | none =>
    let fs1 := addStrFilter [] "address.country_code"
      (_split_filters "country=" CapKind.wordPlus question)
    let fs2 := addStrFilter fs1 "address.market"
      (_split_filters "market=" CapKind.wordPlus question)
    let fs3 := addNumFilter fs2 "beds"
      (_split_filters "beds=" CapKind.digitsPlus question)
    let fs4 := addNumFilter fs3 "bedrooms"
      (_split_filters "bedrooms=" CapKind.digitsPlus question)
    if fs4.isEmpty then none else some (fs4, false)

/- ---------------------------------------------------------------- -/
/- Follow-up classifier and context window builder.                  -/
/- ---------------------------------------------------------------- -/

/-- The fixed cue vocabulary of `QueryProcessor._is_followup`. -/
def followupCues : List String :=
  ["these", "those", "them", "it", "pricing", "price", "cost", "how much",
   "what about", "and what", "compare", "which one", "cheapest", "most expensive",
   "more details", "tell me more", "amenities", "availability", "location"]

/-- `QueryProcessor._is_followup`: strip, lowercase, and test whether any
cue occurs as a substring. -/
def _is_followup (question : String) : Bool :=
  let q := lowerStr (pyStrip question)
  followupCues.any (fun p => strContains q p)

/-- Render one history message as `"<role>: <content>"`. -/
def renderTurn (m : Turn) : String := m.role ++ ": " ++ m.content

/-- Python slice `l[-maxMessages:]` (for `maxMessages = 0` the slice is
the whole list). -/
def lastSlice (l : List Turn) (maxMessages : Nat) : List Turn :=
  if maxMessages == 0 then l else l.drop (l.length - maxMessages)

/-- `QueryProcessor._build_retrieval_query`: the question alone when the
history is falsy, otherwise the stripped context/question template over
the last `maxMessages` turns. -/
def _build_retrieval_query (history : Option (List Turn)) (question : String)
    (maxMessages : Nat) : String :=
  match history with
  | none => question
  | some [] => question
  | some l =>
      let recent := lastSlice l maxMessages
      let convo := String.intercalate "\n" (recent.map renderTurn)
      pyStrip ("Conversation context:\n" ++ convo ++ "\n\nCurrent question:\n" ++ question)

/- ---------------------------------------------------------------- -/
/- Vector search (`search_similar_documents`).                       -/
/- ---------------------------------------------------------------- -/

/-- The `filter` clause of the `$vectorSearch` stage: a direct equality
match `{k: v}` or an `$and` of equality clauses. -/
inductive MatchFilter where
  | eq (field : String) (v : FVal)
  | conj (pairs : FilterList)
deriving DecidableEq, Repr

/-- The `$vectorSearch` stage of the aggregation pipeline sent to the
store (similarity scores are modelled as rationals; the source's
threshold 0.50 is exactly representable). -/
structure VectorSearchQuery where
  index : String
  queryVector : List ℚ
  limit : Nat
  numCandidates : Nat
  filter : Option MatchFilter
deriving DecidableEq, Repr

/-- One candidate returned by the store: its serialized (post-projection)
form and its `score` field (`result.get("score", 0)` defaults to 0). -/
structure ScoredDoc where
  content : String
  score : Option ℚ
deriving DecidableEq, Repr

/-- A record of one `search_similar_documents` invocation: the pipeline
query sent to the store and the client-side score threshold. -/
structure SearchCall where
  query : VectorSearchQuery
  minScore : ℚ
deriving DecidableEq, Repr

/-- The filter-combination logic of `search_similar_documents`
(lines 121-127): a falsy filter list adds no filter, a single pair is a
direct equality match, several pairs are combined with `$and`. -/
def buildMatchFilter (filters : Option FilterList) : Option MatchFilter :=
  match filters with
  | none => none
  | some [] => none
  | some [p] => some (MatchFilter.eq p.1 p.2)
  | some ps => some (MatchFilter.conj ps)

/-- The `$vectorSearch` query built by `search_similar_documents`. -/
def mkPipelineQuery (index : String) (qv : List ℚ) (limit candidates : Nat)
    (filters : Option FilterList) : VectorSearchQuery :=
  ⟨index, qv, limit, candidates, buildMatchFilter filters⟩

/-- `result.get("score", 0)`. -/
def scoreOf (d : ScoredDoc) : ℚ := d.score.getD 0

/-- `QueryProcessor.search_similar_documents`: send the pipeline to the
store (modelled by the `aggregate` oracle) and keep the serialized
candidates whose score reaches `min_score`. -/
def search_similar_documents (aggregate : VectorSearchQuery → List ScoredDoc)
    (index : String) (qv : List ℚ) (filters : Option FilterList)
    (limit candidates : Nat) (min_score : ℚ) : List String :=
  ((aggregate (mkPipelineQuery index qv limit candidates filters)).filter
      (fun d => decide (min_score ≤ scoreOf d))).map ScoredDoc.content

/- ---------------------------------------------------------------- -/
/- LLM synthesis (`_invoke_openai` / `query_llm`).                   -/
/- ---------------------------------------------------------------- -/

/-- `QueryProcessor._invoke_openai`: coerce a null history to `[]`,
append the user turn, call the chat model; on success append the
assistant turn.  On failure the exception propagates with the history as
mutated so far (user turn already appended). -/
def _invoke_openai (llm : List Turn → Except Unit String)
    (history : Option (List Turn)) (prompt : String) :
    Except (List Turn) (String × List Turn) :=
  let h1 := history.getD [] ++ [⟨"user", prompt⟩]
  match llm h1 with
  | Except.ok msg => Except.ok (msg, h1 ++ [⟨"assistant", msg⟩])
  | Except.error _ => Except.error h1

/-- `QueryProcessor.query_llm`: a truthy `history` argument replaces the
stored history before invoking the model. -/
def query_llm (llm : List Turn → Except Unit String)
    (selfHistory : Option (List Turn)) (question : String)
    (history : Option (List Turn)) :
    Except (List Turn) (String × List Turn) :=
  let h := match history with
    | some l => if l.isEmpty then selfHistory else some l
    | none => selfHistory
  _invoke_openai llm h question

/-- The sliding-window truncation applied after a synthesis:
`if self.history and len(self.history) > 8: self.history = self.history[-6:]`. -/
def truncateHistory (h : Option (List Turn)) : Option (List Turn) :=
  match h with
  | none => none
  | some l => if 8 < l.length then some (l.drop (l.length - 6)) else some l

/- ---------------------------------------------------------------- -/
/- The retrieval coordinator (`retrieve_aggregate_facts`).           -/
/- ---------------------------------------------------------------- -/

/-- The external collaborators, as oracles, plus the configured vector
index name. -/
structure World where
  embed : String → List ℚ
  aggregate : VectorSearchQuery → List ScoredDoc
  find_one : FVal → Option (List (String × String))
  llm : List Turn → Except Unit String
  vector_index : String

/-- A record found by `find_one`, as an association list of serialized
fields. -/
abbrev Doc := List (String × String)

/-- `doc.pop("embedding", None)`: drop the embedding-vector field. -/
def popEmbedding (d : Doc) : Doc := d.filter (fun p => !(p.1 == "embedding"))

/-- `bson.json_util.dumps`, modelled as a deterministic rendering of the
field list. -/
def dumps (d : Doc) : String :=
  String.intercalate ", " (d.map (fun p => p.1 ++ ": " ++ p.2))

/-- The session state of `QueryProcessor`. -/
structure RState where
  history : Option (List Turn)
  last_results : Option (List String)
  last_question : Option String
  last_filters : Option (FilterList × Bool)
deriving Repr

/-- The external calls issued during one turn. -/
structure CallTrace where
  embedCalls : List String
  searchCalls : List SearchCall
  findOneCalls : List FVal
  llmPrompts : List String
deriving Repr

/-- The value of one `retrieve_aggregate_facts` turn: the answer, the
session state after the turn, and the calls issued. -/
structure TurnResult where
  answer : String
  state : RState
  trace : CallTrace

/-- The fixed sentinel answer, `"no context from vectors"`. -/
def sentinel : String := "no context from vectors"

/-- `has_explicit_filter = bool(filters and (filters[1] or
(isinstance(filters[0], list) and len(filters[0]) > 0)))`. -/
def has_explicit_filter (filters : Extraction) : Bool :=
  match filters with
  | none => false
  | some (fl, direct) => direct || decide (0 < fl.length)

/-- The guard of the reuse path:
`self.last_results and self._is_followup(question) and not has_explicit_filter`. -/
def reuseCond (st : RState) (q : String) : Bool :=
  (match st.last_results with
   | some l => !l.isEmpty
   | none => false)
  && _is_followup q && !(has_explicit_filter (extract_filters q))

/-- The grounding prompt built before each synthesis. -/
def groundingPrompt (context question : String) : String :=
  "Use the following context to answer the question.\n" ++
  "Context:\n" ++ context ++ "\n\n" ++
  "Question:\n" ++ question

/-- `value = filters[0][0][1] if isinstance(filters[0], list) else filters[0][1]`:
the value of the first extracted filter pair. -/
def directLookupValue (fl : FilterList) : FVal :=
  (fl.headD ("", FVal.str "")).2

/-- The fresh-retrieval step of `retrieve_aggregate_facts` (step 3):
direct fetch by identifier when `is_direct_lookup`, otherwise embed the
context-windowed query and run the vector search with `limit=5`,
`candidates=400` and the default `min_score = 0.50`.  Returns
`mongo_results` (Python `None` as `none`) and the calls issued. -/
def runFresh (w : World) (st : RState) (q : String) (filters : Extraction) :
    Option (List String) × CallTrace :=
  match filters with
  | some (fl, true) =>
      let value := directLookupValue fl
      let mres := match w.find_one value with
        | some doc => some [dumps (popEmbedding doc)]
        | none => none
      (mres, ⟨[], [], [value], []⟩)
  | _ =>
      let filter_list := match filters with
        | some (fl, _) => some fl
        | none => none
      let retrieval_query := _build_retrieval_query st.history q 4
      let qv := w.embed retrieval_query
      let results := search_similar_documents w.aggregate w.vector_index qv
        filter_list 5 400 (mkRat 1 2)
      (some results,
       ⟨[retrieval_query], [⟨mkPipelineQuery w.vector_index qv 5 400 filter_list, mkRat 1 2⟩], [], []⟩)

/-- `QueryProcessor.retrieve_aggregate_facts` (called with the default
`history=None`): reuse path, or fresh retrieval followed by synthesis on
non-empty results: the sentinel answer on empty results; exceptions from
the chat model are caught, resetting the history to null. -/
def retrieve_aggregate_facts (w : World) (st : RState) (q : String) : TurnResult :=
  let filters := extract_filters q
  if reuseCond st q then
    let context := String.intercalate "\n" (st.last_results.getD [])
    let prompt := groundingPrompt context q
    match query_llm w.llm st.history prompt st.history with
    | Except.ok (msg, h) =>
        ⟨msg, ⟨truncateHistory (some h), st.last_results, st.last_question, st.last_filters⟩,
         ⟨[], [], [], [prompt]⟩⟩
    | Except.error _ =>
        ⟨sentinel, ⟨none, st.last_results, st.last_question, st.last_filters⟩,
         ⟨[], [], [], [prompt]⟩⟩
  else
    let fr := runFresh w st q filters
    match fr.1 with
    | some (r :: rs) =>
        let results := r :: rs
        let context := String.intercalate "\n" results
        let prompt := groundingPrompt context q
        match query_llm w.llm st.history prompt st.history with
        | Except.ok (msg, h) =>
            ⟨msg, ⟨truncateHistory (some h), some results, some q, filters⟩,
             ⟨fr.2.embedCalls, fr.2.searchCalls, fr.2.findOneCalls, [prompt]⟩⟩
        | Except.error _ =>
            ⟨sentinel, ⟨none, some results, some q, filters⟩,
             ⟨fr.2.embedCalls, fr.2.searchCalls, fr.2.findOneCalls, [prompt]⟩⟩
    | _ => ⟨sentinel, st, fr.2⟩

/-- The retrieval-query template exactly as the spec words it:
`"Conversation context:\n<rendered>\n\nCurrent question:\n<question>"`
where `<rendered>` is the last `maxMessages` turns, oldest to newest,
each rendered as `"<role>: <content>"` joined by newline.  Written from
the spec, to be compared with `_build_retrieval_query`. -/
def specRetrievalTemplate (history : List Turn) (question : String)
    (maxMessages : Nat) : String :=
  "Conversation context:\n" ++
  String.intercalate "\n" ((lastSlice history maxMessages).map renderTurn) ++
  "\n\nCurrent question:\n" ++ question

/-- The length of a possibly-null conversation history. -/
def historyLen (h : Option (List Turn)) : Nat := (h.getD []).length

/- ---------------------------------------------------------------- -/
/- Concrete fixtures used to evaluate the theorems on inputs.        -/
/- ---------------------------------------------------------------- -/

/-- A world whose chat model answers and whose store returns one scored
document. -/
def wOk : World :=
  ⟨fun _ => [], fun _ => [⟨"doc1", some 1⟩], fun _ => none,
   fun _ => Except.ok "answer", "vector_index"⟩

/-- A world whose chat model always raises. -/
def wFail : World :=
  ⟨fun _ => [], fun _ => [], fun _ => none,
   fun _ => Except.error (), "vector_index"⟩

/-- A world whose store finds a record (with an embedding field) by id
and whose search returns nothing. -/
def wDoc : World :=
  ⟨fun _ => [], fun _ => [], fun _ => some [("_id", "10006546"), ("embedding", "vec"), ("name", "casa")],
   fun _ => Except.ok "answer", "vector_index"⟩

/-- A world where every retrieval comes back empty. -/
def wEmpty : World :=
  ⟨fun _ => [], fun _ => [], fun _ => none, fun _ => Except.ok "answer", "vector_index"⟩

/-- A fresh session state. -/
def stEmpty : RState := ⟨none, none, none, none⟩

/-- A session state holding one prior retrieval result. -/
def stLast : RState := ⟨none, some ["ctx1"], some "prior question", none⟩

example : extract_filters "id=12345678" = some ([("_id", FVal.str "12345678")], true) := by
  decide

example : extract_filters "beds=2 bedrooms=1 market=Paris" =
    some ([("address.market", FVal.str "Paris"), ("beds", FVal.num 2),
           ("bedrooms", FVal.num 1)], false) := by
  decide

example : extract_filters "hello" = none := by decide

example : _is_followup "what about pricing?" = true := by decide

example : _is_followup "hello" = false := by decide

/- ---------------------------------------------------------------- -/
/- Lemmas about the pattern searcher.                                -/
/- ---------------------------------------------------------------- -/

lemma capture_digitsExact_shape {n : Nat} {s cap : List Char}
    (h : capture (CapKind.digitsExact n) s = some cap) :
    cap.length = n ∧ cap.all Char.isDigit = true := by
  simp only [capture] at h
  split at h
  · rename_i hcond
    injection h with h
    subst h
    simp only [Bool.and_eq_true, beq_iff_eq] at hcond
    exact hcond
  · exact absurd h (by simp)

lemma capture_wordPlus_shape {s cap : List Char}
    (h : capture CapKind.wordPlus s = some cap) :
    ∀ c ∈ cap, (c != ' ' && c != '"') = true := by
  simp only [capture] at h
  split at h
  · exact absurd h (by simp)
  · injection h with h
    subst h
    intro c hc
    have h2 := List.mem_takeWhile_imp hc
    exact h2

lemma reSearch_digitsExact_shape {key : List Char} {n : Nat} {s cap : List Char}
    (h : reSearch key (CapKind.digitsExact n) s = some cap) :
    cap.length = n ∧ cap.all Char.isDigit = true := by
  induction s generalizing cap with
  | nil => simp [reSearch] at h
  | cons c cs ih =>
      simp only [reSearch] at h
      cases htk : tryKeyCI key (c :: cs) with
      | none => simp only [htk] at h; exact ih h
      | some rest =>
          simp only [htk] at h
          cases hcap : capture (CapKind.digitsExact n) rest with
          | none => simp only [hcap] at h; exact ih h
          | some cap2 =>
              simp only [hcap] at h
              injection h with h
              subst h
              exact capture_digitsExact_shape hcap

lemma reSearch_wordPlus_shape {key : List Char} {s cap : List Char}
    (h : reSearch key CapKind.wordPlus s = some cap) :
    ∀ c ∈ cap, (c != ' ' && c != '"') = true := by
  induction s generalizing cap with
  | nil => simp [reSearch] at h
  | cons c cs ih =>
      simp only [reSearch] at h
      cases htk : tryKeyCI key (c :: cs) with
      | none => simp only [htk] at h; exact ih h
      | some rest =>
          simp only [htk] at h
          cases hcap : capture CapKind.wordPlus rest with
          | none => simp only [hcap] at h; exact ih h
          | some cap2 =>
              simp only [hcap] at h
              injection h with h
              subst h
              exact capture_wordPlus_shape hcap

lemma tryKeyCI_id (rest : List Char) :
    tryKeyCI ['i', 'd', '='] ('i' :: 'd' :: '=' :: rest) = some rest := by
  simp [tryKeyCI]

lemma capture_digitsExact_of_append {ds post : List Char}
    (h8 : ds.length = 8) (hd : ds.all Char.isDigit = true) :
    capture (CapKind.digitsExact 8) (ds ++ post) = some ds := by
  simp only [capture]
  rw [List.take_left' h8]
  simp [h8, hd]

lemma reSearch_id_isSome {ds post : List Char} (pre : List Char)
    (h8 : ds.length = 8) (hd : ds.all Char.isDigit = true) :
    (reSearch ['i', 'd', '='] (CapKind.digitsExact 8)
        (pre ++ 'i' :: 'd' :: '=' :: (ds ++ post))).isSome = true := by
  induction pre with
  | nil =>
      simp only [List.nil_append, reSearch, tryKeyCI_id,
        capture_digitsExact_of_append h8 hd, Option.isSome_some]
  | cons c cs ih =>
      rw [List.cons_append]
      cases htk : tryKeyCI ['i', 'd', '='] (c :: (cs ++ 'i' :: 'd' :: '=' :: (ds ++ post))) with
      | none =>
          simp only [reSearch, htk]
          exact ih
      | some rest =>
          cases hcap : capture (CapKind.digitsExact 8) rest with
          | none =>
              simp only [reSearch, htk, hcap]
              exact ih
          | some cap =>
              simp only [reSearch, htk, hcap, Option.isSome_some]

lemma mem_splitFirstComma {c : Char} {l : List Char} (h : c ∈ splitFirstComma l) :
    c ∈ l ∧ (c != ',') = true := by
  unfold splitFirstComma at h
  have h2 := List.mem_takeWhile_imp h
  exact ⟨( List.takeWhile_prefix _).sublist.mem h, h2⟩

lemma splitFirstComma_of_digits {l : List Char} (hd : l.all Char.isDigit = true) :
    splitFirstComma l = l := by
  unfold splitFirstComma
  rw [List.takeWhile_eq_self_iff]
  intro c hc
  have h1 : c.isDigit = true := List.all_eq_true.mp hd c hc
  simp only [bne_iff_ne, ne_eq]
  intro hEq
  subst hEq
  exact absurd h1 (by decide)

lemma data_mk (l : List Char) : (String.mk l).data = l := rfl

lemma split_filters_id_val {q s : String}
    (h : _split_filters "id=" (CapKind.digitsExact 8) q = some s) :
    s.data.length = 8 ∧ s.data.all Char.isDigit = true := by
  unfold _split_filters at h
  cases hr : reSearch ("id=" : String).data (CapKind.digitsExact 8) q.data with
  | none =>
      simp only [hr] at h
      exact Option.noConfusion h
  | some cap =>
      simp only [hr] at h
      injection h with h
      subst h
      have hs := reSearch_digitsExact_shape hr
      rw [data_mk, splitFirstComma_of_digits hs.2]
      exact hs

lemma split_filters_wordPlus_val {key q s : String}
    (h : _split_filters key CapKind.wordPlus q = some s) :
    ∀ c ∈ s.data, c ≠ ' ' ∧ c ≠ '"' ∧ c ≠ ',' := by
  unfold _split_filters at h
  cases hr : reSearch key.data CapKind.wordPlus q.data with
  | none =>
      simp only [hr] at h
      exact Option.noConfusion h
  | some cap =>
      simp only [hr] at h
      injection h with h
      subst h
      intro c hc
      rw [data_mk] at hc
      obtain ⟨hmem, hcomma⟩ := mem_splitFirstComma hc
      have hw := reSearch_wordPlus_shape hr c hmem
      simp only [Bool.and_eq_true, bne_iff_ne, ne_eq] at hw hcomma
      exact ⟨hw.1, hw.2, hcomma⟩

lemma mem_addNumFilter {fs : FilterList} {field : String} {m : Option String}
    {k : String} {s : String} (h : (k, FVal.str s) ∈ addNumFilter fs field m) :
    (k, FVal.str s) ∈ fs := by
  unfold addNumFilter at h
  cases m with
  | none => exact h
  | some v =>
      simp only [List.mem_append, List.mem_singleton] at h
      cases h with
      | inl h2 => exact h2
      | inr h2 =>
          simp only [Prod.mk.injEq] at h2
          exact FVal.noConfusion h2.2

lemma mem_addStrFilter {fs : FilterList} {field : String} {m : Option String}
    {k : String} {s : String} (h : (k, FVal.str s) ∈ addStrFilter fs field m) :
    (k, FVal.str s) ∈ fs ∨ (k = field ∧ m = some s) := by
  unfold addStrFilter at h
  cases m with
  | none => exact Or.inl h
  | some v =>
      simp only [List.mem_append, List.mem_singleton] at h
      cases h with
      | inl h2 => exact Or.inl h2
      | inr h2 =>
          simp only [Prod.mk.injEq, FVal.str.injEq] at h2
          exact Or.inr ⟨h2.1, by rw [h2.2]⟩

/-- C2: any question containing an 8-digit `id=XXXXXXXX` token (here: its
character sequence decomposes around a literal `id=` followed by 8 digits)
makes `extract_filters` return exactly one filter, keyed on `_id`, with
`is_direct_lookup = true`, regardless of any other filter tokens present
anywhere in the text. -/
theorem extract_filters_id_short_circuits (q : String) (pre ds post : List Char)
    (hq : q.data = pre ++ 'i' :: 'd' :: '=' :: (ds ++ post))
    (h8 : ds.length = 8) (hd : ds.all Char.isDigit = true) :
    ∃ m : String, extract_filters q = some ([("_id", FVal.str m)], true) ∧
      m.data.length = 8 ∧ m.data.all Char.isDigit = true := by
  have hkey : ("id=" : String).data = ['i', 'd', '='] := rfl
  have hsome : (reSearch ("id=" : String).data (CapKind.digitsExact 8) q.data).isSome = true := by
    rw [hkey, hq]
    exact reSearch_id_isSome pre h8 hd
  obtain ⟨cap, hcap⟩ := Option.isSome_iff_exists.mp hsome
  have hsplit : _split_filters "id=" (CapKind.digitsExact 8) q =
      some (String.mk (splitFirstComma cap)) := by
    unfold _split_filters
    simp only [hcap]
  have hval := split_filters_id_val hsplit
  refine ⟨String.mk (splitFirstComma cap), ?_, hval.1, hval.2⟩
  unfold extract_filters
  simp only [hsplit]

theorem extract_filters_id_short_circuits_witness :
    (("id=12345678" : String).data =
        [] ++ 'i' :: 'd' :: '=' :: (("12345678" : String).data ++ []) ∧
      ("12345678" : String).data.length = 8 ∧
      ("12345678" : String).data.all Char.isDigit = true) ∧
    ∃ m : String, extract_filters "id=12345678" = some ([("_id", FVal.str m)], true) ∧
      m.data.length = 8 ∧ m.data.all Char.isDigit = true :=
  ⟨⟨by decide, by decide, by decide⟩,
   extract_filters_id_short_circuits "id=12345678" [] ("12345678" : String).data []
     (by decide) (by decide) (by decide)⟩

/-- C9 counterexample: the claim says the builder returns exactly the
template string, but the source applies `.strip()` to it; a question with
trailing whitespace shows the difference. -/
theorem build_retrieval_query_template_cex :
    _build_retrieval_query (some [⟨"user", "x"⟩]) "hi " 4 ≠
      "Conversation context:\nuser: x\n\nCurrent question:\nhi " := by
  decide

/-- C9 amended: the builder is a pure function that returns the question
unchanged on an empty (or null) history, and otherwise returns the
template `"Conversation context:\n<rendered>\n\nCurrent question:\n<question>"`
over the last 4 turns stripped of leading and trailing whitespace. -/
theorem build_retrieval_query_amended (q : String) :
    (∀ h : Option (List Turn), h = none ∨ h = some [] →
        _build_retrieval_query h q 4 = q) ∧
    (∀ l : List Turn, l ≠ [] →
        _build_retrieval_query (some l) q 4 = pyStrip (specRetrievalTemplate l q 4)) := by
  constructor
  · rintro h (rfl | rfl) <;> rfl
  · intro l hl
    cases l with
    | nil => exact absurd rfl hl
    | cons a as => rfl

theorem build_retrieval_query_amended_witness :
    ([Turn.mk "user" "x"] ≠ [] ∧
      _build_retrieval_query (some [Turn.mk "user" "x"]) "hi" 4 =
        pyStrip (specRetrievalTemplate [Turn.mk "user" "x"] "hi" 4)) :=
  ⟨by decide, (build_retrieval_query_amended "hi").2 [Turn.mk "user" "x"] (by decide)⟩

/-- C10: every string-valued filter the extractor produces is cut at the
first space or double-quote (the `[^\" ]+` character class) and further
truncated at the first comma, so no extracted string value contains a
space, a double-quote, or a comma; a multi-word or comma-containing value
is never captured whole. -/
theorem extract_filters_values_truncated (q : String) (fl : FilterList) (b : Bool)
    (hext : extract_filters q = some (fl, b)) :
    ∀ k s, (k, FVal.str s) ∈ fl → ∀ c ∈ s.data, c ≠ ' ' ∧ c ≠ '"' ∧ c ≠ ',' := by
  unfold extract_filters at hext
  cases hid : _split_filters "id=" (CapKind.digitsExact 8) q with
  | some m =>
      simp only [hid] at hext
      injection hext with hext
      injection hext with h1 h2
      subst h1
      intro k s hmem c hc
      simp only [List.mem_singleton, Prod.mk.injEq, FVal.str.injEq] at hmem
      obtain ⟨hk, hs⟩ := hmem
      subst hs
      have hv := split_filters_id_val hid
      have hdig : c.isDigit = true := List.all_eq_true.mp hv.2 c hc
      refine ⟨?_, ?_, ?_⟩ <;> (intro hEq; subst hEq; exact absurd hdig (by decide))
  | none =>
      simp only [hid] at hext
      split at hext
      · simp at hext
      · injection hext with hext
        injection hext with h1 h2
        subst h1
        intro k s hmem c hc
        rcases mem_addStrFilter (mem_addNumFilter (mem_addNumFilter hmem)) with
          hm | ⟨hk, hsome⟩
        · rcases mem_addStrFilter hm with hm2 | ⟨hk2, hsome2⟩
          · simp at hm2
          · exact split_filters_wordPlus_val hsome2 c hc
        · exact split_filters_wordPlus_val hsome c hc

theorem extract_filters_values_truncated_witness :
    (extract_filters "market=Paris,France" =
        some ([("address.market", FVal.str "Paris")], false)) ∧
    (∀ k s, (k, FVal.str s) ∈ [("address.market", FVal.str "Paris")] →
        ∀ c ∈ s.data, c ≠ ' ' ∧ c ≠ '"' ∧ c ≠ ',') :=
  ⟨by decide,
   extract_filters_values_truncated "market=Paris,France" _ false (by decide)⟩

/- ---------------------------------------------------------------- -/
/- Lemmas about the coordinator.                                     -/
/- ---------------------------------------------------------------- -/

lemma extract_some_ne_nil {q : String} {fl : FilterList} {b : Bool}
    (h : extract_filters q = some (fl, b)) : fl ≠ [] := by
  unfold extract_filters at h
  cases hid : _split_filters "id=" (CapKind.digitsExact 8) q with
  | some m =>
      simp only [hid] at h
      injection h with h
      injection h with h1 h2
      subst h1
      simp
  | none =>
      simp only [hid] at h
      split at h
      · exact Option.noConfusion h
      · rename_i hcond
        injection h with h
        injection h with h1 h2
        subst h1
        intro hnil
        exact hcond (by simp [hnil])

lemma hasExpl_true {q : String} {fl : FilterList} {b : Bool}
    (h : extract_filters q = some (fl, b)) :
    has_explicit_filter (extract_filters q) = true := by
  rw [h]
  unfold has_explicit_filter
  simp [List.length_pos.mpr (extract_some_ne_nil h)]

lemma reuseCond_false_of_extract_some (st : RState) {q : String} {fl : FilterList}
    {b : Bool} (h : extract_filters q = some (fl, b)) :
    reuseCond st q = false := by
  unfold reuseCond
  rw [hasExpl_true h]
  simp

lemma reuseCond_true_of {st : RState} {q : String} {l : List String}
    (hlast : st.last_results = some l) (hne : l ≠ [])
    (hfu : _is_followup q = true) (hext : extract_filters q = none) :
    reuseCond st q = true := by
  unfold reuseCond
  rw [hlast, hfu]
  unfold has_explicit_filter
  rw [hext]
  simp [hne]

lemma runFresh_llmPrompts (w : World) (st : RState) (q : String) (filters : Extraction) :
    (runFresh w st q filters).2.llmPrompts = [] := by
  unfold runFresh
  split <;> rfl

lemma truncateHistory_le8 (h : Option (List Turn)) :
    historyLen (truncateHistory h) ≤ 8 := by
  cases h with
  | none => simp [truncateHistory, historyLen]
  | some l =>
      unfold truncateHistory historyLen
      by_cases h8 : 8 < l.length
      · simp [h8]
        omega
      · simp [h8]
        omega

/-- C1: when the session holds a non-empty `last_results`, the question is
classified as a follow-up and the extractor returns no filters, the turn
takes the reuse path: the joined `last_results` form the grounding prompt
handed to the synthesizer, no embedding, vector-search or id-lookup call
is issued, and `last_results` / `last_question` / `last_filters` are
unchanged after the turn. -/
theorem reuse_path_frame (w : World) (st : RState) (q : String) (l : List String)
    (hlast : st.last_results = some l) (hne : l ≠ [])
    (hfu : _is_followup q = true) (hext : extract_filters q = none) :
    (retrieve_aggregate_facts w st q).trace.embedCalls = [] ∧
    (retrieve_aggregate_facts w st q).trace.searchCalls = [] ∧
    (retrieve_aggregate_facts w st q).trace.findOneCalls = [] ∧
    (retrieve_aggregate_facts w st q).trace.llmPrompts =
      [groundingPrompt (String.intercalate "\n" l) q] ∧
    (retrieve_aggregate_facts w st q).state.last_results = st.last_results ∧
    (retrieve_aggregate_facts w st q).state.last_question = st.last_question ∧
    (retrieve_aggregate_facts w st q).state.last_filters = st.last_filters := by
  have hru := reuseCond_true_of hlast hne hfu hext
  unfold retrieve_aggregate_facts
  rw [hru, hlast]
  simp only [if_true, Option.getD_some]
  split <;> simp

theorem reuse_path_frame_witness :
    (stLast.last_results = some ["ctx1"] ∧ (["ctx1"] : List String) ≠ [] ∧
      _is_followup "what about pricing?" = true ∧
      extract_filters "what about pricing?" = none) ∧
    ((retrieve_aggregate_facts wOk stLast "what about pricing?").trace.embedCalls = [] ∧
     (retrieve_aggregate_facts wOk stLast "what about pricing?").trace.searchCalls = [] ∧
     (retrieve_aggregate_facts wOk stLast "what about pricing?").trace.findOneCalls = [] ∧
     (retrieve_aggregate_facts wOk stLast "what about pricing?").trace.llmPrompts =
       [groundingPrompt (String.intercalate "\n" ["ctx1"]) "what about pricing?"] ∧
     (retrieve_aggregate_facts wOk stLast "what about pricing?").state.last_results =
       stLast.last_results ∧
     (retrieve_aggregate_facts wOk stLast "what about pricing?").state.last_question =
       stLast.last_question ∧
     (retrieve_aggregate_facts wOk stLast "what about pricing?").state.last_filters =
       stLast.last_filters) :=
  ⟨⟨rfl, by decide, by decide, by decide⟩,
   reuse_path_frame wOk stLast "what about pricing?" ["ctx1"] rfl (by decide)
     (by decide) (by decide)⟩

/-- C3: a question extracted with `is_direct_lookup = true` makes the
coordinator perform a single-record fetch by the extracted identifier,
with no embedding call and no vector-search call; a found record has its
embedding field stripped and becomes the sole retrieval result; a missing
record yields the sentinel answer with no synthesis and an unchanged
session state, raising no error. -/
theorem direct_lookup_path (w : World) (st : RState) (q : String) (fl : FilterList)
    (hext : extract_filters q = some (fl, true)) :
    (retrieve_aggregate_facts w st q).trace.embedCalls = [] ∧
    (retrieve_aggregate_facts w st q).trace.searchCalls = [] ∧
    (retrieve_aggregate_facts w st q).trace.findOneCalls = [directLookupValue fl] ∧
    (∀ doc, w.find_one (directLookupValue fl) = some doc →
      (retrieve_aggregate_facts w st q).state.last_results =
        some [dumps (popEmbedding doc)] ∧
      (retrieve_aggregate_facts w st q).trace.llmPrompts =
        [groundingPrompt (String.intercalate "\n" [dumps (popEmbedding doc)]) q]) ∧
    (w.find_one (directLookupValue fl) = none →
      (retrieve_aggregate_facts w st q).answer = sentinel ∧
      (retrieve_aggregate_facts w st q).trace.llmPrompts = [] ∧
      (retrieve_aggregate_facts w st q).state = st) := by
  have hru := reuseCond_false_of_extract_some st hext
  unfold retrieve_aggregate_facts
  rw [hru]
  simp only [Bool.false_eq_true, if_false, hext]
  unfold runFresh
  cases hfo : w.find_one (directLookupValue fl) with
  | some doc =>
      simp only [hfo]
      cases hql : query_llm w.llm st.history
          (groundingPrompt (String.intercalate "\n" [dumps (popEmbedding doc)]) q)
          st.history with
      | ok p =>
          obtain ⟨msg, hh⟩ := p
          simp only [hql]
          refine ⟨by trivial, by trivial, by trivial, ?_, ?_⟩
          · intro doc2 hdoc2
            injection hdoc2 with hdoc2
            subst hdoc2
            exact ⟨rfl, rfl⟩
          · intro hnone
            exact Option.noConfusion hnone
      | error e =>
          simp only [hql]
          refine ⟨by trivial, by trivial, by trivial, ?_, ?_⟩
          · intro doc2 hdoc2
            injection hdoc2 with hdoc2
            subst hdoc2
            exact ⟨rfl, rfl⟩
          · intro hnone
            exact Option.noConfusion hnone
  | none =>
      simp only [hfo]
      refine ⟨by trivial, by trivial, by trivial, ?_, ?_⟩
      · intro doc2 hdoc2
        exact Option.noConfusion hdoc2
      · intro hnone
        exact ⟨by trivial, by trivial, by trivial⟩

theorem direct_lookup_path_witness :
    extract_filters "id=10006546" = some ([("_id", FVal.str "10006546")], true) ∧
    ((retrieve_aggregate_facts wDoc stEmpty "id=10006546").trace.embedCalls = [] ∧
     (retrieve_aggregate_facts wDoc stEmpty "id=10006546").trace.searchCalls = [] ∧
     (retrieve_aggregate_facts wDoc stEmpty "id=10006546").trace.findOneCalls =
       [directLookupValue [("_id", FVal.str "10006546")]] ∧
     (∀ doc, wDoc.find_one (directLookupValue [("_id", FVal.str "10006546")]) = some doc →
       (retrieve_aggregate_facts wDoc stEmpty "id=10006546").state.last_results =
         some [dumps (popEmbedding doc)] ∧
       (retrieve_aggregate_facts wDoc stEmpty "id=10006546").trace.llmPrompts =
         [groundingPrompt (String.intercalate "\n" [dumps (popEmbedding doc)]) "id=10006546"]) ∧
     (wDoc.find_one (directLookupValue [("_id", FVal.str "10006546")]) = none →
       (retrieve_aggregate_facts wDoc stEmpty "id=10006546").answer = sentinel ∧
       (retrieve_aggregate_facts wDoc stEmpty "id=10006546").trace.llmPrompts = [] ∧
       (retrieve_aggregate_facts wDoc stEmpty "id=10006546").state = stEmpty)) :=
  ⟨by decide,
   direct_lookup_path wDoc stEmpty "id=10006546" [("_id", FVal.str "10006546")] (by decide)⟩

lemma retrieve_fresh_trace_eq (w : World) (st : RState) (q : String)
    (hru : reuseCond st q = false) :
    (retrieve_aggregate_facts w st q).trace.embedCalls =
      (runFresh w st q (extract_filters q)).2.embedCalls ∧
    (retrieve_aggregate_facts w st q).trace.searchCalls =
      (runFresh w st q (extract_filters q)).2.searchCalls ∧
    (retrieve_aggregate_facts w st q).trace.findOneCalls =
      (runFresh w st q (extract_filters q)).2.findOneCalls := by
  unfold retrieve_aggregate_facts
  rw [hru]
  simp only [Bool.false_eq_true, if_false]
  rcases hfr : runFresh w st q (extract_filters q) with ⟨mres, tr⟩
  simp only [hfr]
  cases mres with
  | none => exact ⟨by trivial, by trivial, by trivial⟩
  | some rs =>
      cases rs with
      | nil => exact ⟨by trivial, by trivial, by trivial⟩
      | cons r rest =>
          cases hql : query_llm w.llm st.history
              (groundingPrompt (String.intercalate "\n" (r :: rest)) q) st.history with
          | ok p =>
              obtain ⟨msg, hh⟩ := p
              simp only [hql]
              exact ⟨by trivial, by trivial, by trivial⟩
          | error e =>
              simp only [hql]
              exact ⟨by trivial, by trivial, by trivial⟩

lemma runFresh_some_false (w : World) (st : RState) (q : String) (fl : FilterList) :
    runFresh w st q (some (fl, false)) =
      (some (search_similar_documents w.aggregate w.vector_index
          (w.embed (_build_retrieval_query st.history q 4)) (some fl) 5 400 (mkRat 1 2)),
       ⟨[_build_retrieval_query st.history q 4],
        [⟨mkPipelineQuery w.vector_index
            (w.embed (_build_retrieval_query st.history q 4)) 5 400 (some fl), mkRat 1 2⟩],
        [], []⟩) := rfl

lemma runFresh_none_filters (w : World) (st : RState) (q : String) :
    runFresh w st q none =
      (some (search_similar_documents w.aggregate w.vector_index
          (w.embed (_build_retrieval_query st.history q 4)) none 5 400 (mkRat 1 2)),
       ⟨[_build_retrieval_query st.history q 4],
        [⟨mkPipelineQuery w.vector_index
            (w.embed (_build_retrieval_query st.history q 4)) 5 400 none, mkRat 1 2⟩],
        [], []⟩) := rfl

/-- C4: when the delegated chat-model call raises, the coordinator
catches the exception, resets the conversation history to null, returns
the last-assigned sentinel answer, and issues at most one synthesis call
per turn (no retry); the failure never escapes `retrieve_aggregate_facts`. -/
theorem synthesis_failure_resets (w : World) (st : RState) (q : String)
    (hfail : ∀ msgs, w.llm msgs = Except.error ()) :
    (retrieve_aggregate_facts w st q).trace.llmPrompts.length ≤ 1 ∧
    ((retrieve_aggregate_facts w st q).trace.llmPrompts ≠ [] →
      (retrieve_aggregate_facts w st q).state.history = none ∧
      (retrieve_aggregate_facts w st q).answer = sentinel) := by
  have hql : ∀ (selfH : Option (List Turn)) (p : String) (hist : Option (List Turn)),
      ∃ hh, query_llm w.llm selfH p hist = Except.error hh := by
    intro selfH p hist
    unfold query_llm _invoke_openai
    simp only [hfail]
    exact ⟨_, rfl⟩
  unfold retrieve_aggregate_facts
  by_cases hru : reuseCond st q = true
  · rw [hru]
    simp only [if_true]
    obtain ⟨hh, he⟩ := hql st.history
      (groundingPrompt (String.intercalate "\n" (st.last_results.getD [])) q) st.history
    simp only [he]
    exact ⟨by simp, fun hne => ⟨by trivial, by trivial⟩⟩
  · rw [Bool.not_eq_true] at hru
    rw [hru]
    simp only [Bool.false_eq_true, if_false]
    rcases hfr : runFresh w st q (extract_filters q) with ⟨mres, tr⟩
    simp only [hfr]
    have htr : tr.llmPrompts = [] := by
      have h0 := runFresh_llmPrompts w st q (extract_filters q)
      rw [hfr] at h0
      exact h0
    cases mres with
    | none => simp [htr]
    | some rs =>
        cases rs with
        | nil => simp [htr]
        | cons r rest =>
            obtain ⟨hh, he⟩ := hql st.history
              (groundingPrompt (String.intercalate "\n" (r :: rest)) q) st.history
            simp only [he]
            exact ⟨by simp, fun hne => ⟨by trivial, by trivial⟩⟩

theorem synthesis_failure_resets_witness :
    (∀ msgs, wFail.llm msgs = Except.error ()) ∧
    ((retrieve_aggregate_facts wFail stLast "what about pricing?").trace.llmPrompts.length ≤ 1 ∧
     ((retrieve_aggregate_facts wFail stLast "what about pricing?").trace.llmPrompts ≠ [] →
       (retrieve_aggregate_facts wFail stLast "what about pricing?").state.history = none ∧
       (retrieve_aggregate_facts wFail stLast "what about pricing?").answer = sentinel)) :=
  ⟨fun _ => rfl,
   synthesis_failure_resets wFail stLast "what about pricing?" (fun _ => rfl)⟩

/-- C5: a fresh turn (the reuse guard is false) whose retrieval comes
back empty (Python `None` or an empty list) skips synthesis, answers with
the fixed sentinel, and leaves the whole session state, including
`last_results`, untouched. -/
theorem empty_retrieval_sentinel (w : World) (st : RState) (q : String)
    (hru : reuseCond st q = false)
    (hempty : (runFresh w st q (extract_filters q)).1 = none ∨
        (runFresh w st q (extract_filters q)).1 = some []) :
    (retrieve_aggregate_facts w st q).answer = sentinel ∧
    (retrieve_aggregate_facts w st q).state = st ∧
    (retrieve_aggregate_facts w st q).trace.llmPrompts = [] := by
  unfold retrieve_aggregate_facts
  rw [hru]
  simp only [Bool.false_eq_true, if_false]
  have htr := runFresh_llmPrompts w st q (extract_filters q)
  rcases hempty with he | he <;> simp only [he] <;> exact ⟨by trivial, by trivial, htr⟩

theorem empty_retrieval_sentinel_witness :
    (reuseCond stEmpty "hello" = false ∧
      (runFresh wEmpty stEmpty "hello" (extract_filters "hello")).1 = some []) ∧
    ((retrieve_aggregate_facts wEmpty stEmpty "hello").answer = sentinel ∧
     (retrieve_aggregate_facts wEmpty stEmpty "hello").state = stEmpty ∧
     (retrieve_aggregate_facts wEmpty stEmpty "hello").trace.llmPrompts = []) :=
  ⟨⟨by decide, by decide⟩,
   empty_retrieval_sentinel wEmpty stEmpty "hello" (by decide) (Or.inr (by decide))⟩

/-- C6: the sliding window keeps the conversation bounded: whenever it is
triggered (length over 8) it keeps exactly the most recent 6 turns, and
after any turn that attempted a synthesis the stored history has length
at most 8 (for any session state, i.e. after any number of prior turns). -/
theorem history_sliding_window (w : World) (st : RState) (q : String) (l : List Turn) :
    ((retrieve_aggregate_facts w st q).trace.llmPrompts ≠ [] →
      historyLen (retrieve_aggregate_facts w st q).state.history ≤ 8) ∧
    (8 < l.length →
      truncateHistory (some l) = some (l.drop (l.length - 6)) ∧
      (l.drop (l.length - 6)).length = 6 ∧ l.drop (l.length - 6) <:+ l) := by
  constructor
  · intro hne
    unfold retrieve_aggregate_facts at hne ⊢
    by_cases hru : reuseCond st q = true
    · rw [hru] at hne ⊢
      simp only [if_true] at hne ⊢
      cases hql : query_llm w.llm st.history
          (groundingPrompt (String.intercalate "\n" (st.last_results.getD [])) q)
          st.history with
      | ok p =>
          obtain ⟨msg, hh⟩ := p
          simp only [hql]
          exact truncateHistory_le8 _
      | error e =>
          simp only [hql]
          simp [historyLen]
    · rw [Bool.not_eq_true] at hru
      rw [hru] at hne ⊢
      simp only [Bool.false_eq_true, if_false] at hne ⊢
      rcases hfr : runFresh w st q (extract_filters q) with ⟨mres, tr⟩
      simp only [hfr] at hne ⊢
      have htr : tr.llmPrompts = [] := by
        have h0 := runFresh_llmPrompts w st q (extract_filters q)
        rw [hfr] at h0
        exact h0
      cases mres with
      | none => simp [htr] at hne
      | some rs =>
          cases rs with
          | nil => simp [htr] at hne
          | cons r rest =>
              cases hql : query_llm w.llm st.history
                  (groundingPrompt (String.intercalate "\n" (r :: rest)) q) st.history with
              | ok p =>
                  obtain ⟨msg, hh⟩ := p
                  simp only [hql]
                  exact truncateHistory_le8 _
              | error e =>
                  simp only [hql]
                  simp [historyLen]
  · intro h8
    refine ⟨?_, ?_, List.drop_suffix _ _⟩
    · unfold truncateHistory
      simp [h8]
    · simp only [List.length_drop]
      omega

theorem history_sliding_window_witness :
    ((retrieve_aggregate_facts wOk stLast "what about pricing?").trace.llmPrompts ≠ [] ∧
      historyLen (retrieve_aggregate_facts wOk stLast "what about pricing?").state.history ≤ 8) ∧
    (8 < (List.replicate 9 (Turn.mk "user" "x")).length ∧
      truncateHistory (some (List.replicate 9 (Turn.mk "user" "x"))) =
        some ((List.replicate 9 (Turn.mk "user" "x")).drop
          ((List.replicate 9 (Turn.mk "user" "x")).length - 6)) ∧
      ((List.replicate 9 (Turn.mk "user" "x")).drop
          ((List.replicate 9 (Turn.mk "user" "x")).length - 6)).length = 6 ∧
      (List.replicate 9 (Turn.mk "user" "x")).drop
          ((List.replicate 9 (Turn.mk "user" "x")).length - 6) <:+
        List.replicate 9 (Turn.mk "user" "x")) :=
  ⟨⟨by decide,
    (history_sliding_window wOk stLast "what about pricing?" []).1 (by decide)⟩,
   ⟨by decide,
    (history_sliding_window wOk stLast "what about pricing?"
      (List.replicate 9 (Turn.mk "user" "x"))).2 (by decide)⟩⟩

/-- C7: a fresh vector search passes the extracted filter pairs to the
store exactly as the source combines them: one pair becomes a direct
equality match on that field, several pairs are combined under `$and`,
and a turn with no extracted filters attaches no filter to the query. -/
theorem vector_search_filter_combination (w : World) (st : RState) (q : String)
    (fl : FilterList) (hext : extract_filters q = some (fl, false)) :
    ((retrieve_aggregate_facts w st q).trace.searchCalls.map
        (fun c => c.query.filter) = [buildMatchFilter (some fl)]) ∧
    (∀ k v, fl = [(k, v)] → buildMatchFilter (some fl) = some (MatchFilter.eq k v)) ∧
    (1 < fl.length → buildMatchFilter (some fl) = some (MatchFilter.conj fl)) ∧
    (∀ st2 q2, reuseCond st2 q2 = false → extract_filters q2 = none →
      (retrieve_aggregate_facts w st2 q2).trace.searchCalls.map
        (fun c => c.query.filter) = [none]) := by
  have hru := reuseCond_false_of_extract_some st hext
  refine ⟨?_, ?_, ?_, ?_⟩
  · have ht := (retrieve_fresh_trace_eq w st q hru).2.1
    rw [ht, hext, runFresh_some_false]
    rfl
  · intro k v hfl
    subst hfl
    rfl
  · intro h1
    cases fl with
    | nil => simp at h1
    | cons p ps =>
        cases ps with
        | nil => simp at h1
        | cons p2 ps2 => rfl
  · intro st2 q2 hru2 hext2
    have ht := (retrieve_fresh_trace_eq w st2 q2 hru2).2.1
    rw [ht, hext2, runFresh_none_filters]
    rfl

theorem vector_search_filter_combination_witness :
    extract_filters "beds=2 bedrooms=1 market=Paris" =
      some ([("address.market", FVal.str "Paris"), ("beds", FVal.num 2),
             ("bedrooms", FVal.num 1)], false) ∧
    (((retrieve_aggregate_facts wOk stEmpty "beds=2 bedrooms=1 market=Paris").trace.searchCalls.map
        (fun c => c.query.filter) =
        [buildMatchFilter (some [("address.market", FVal.str "Paris"), ("beds", FVal.num 2),
             ("bedrooms", FVal.num 1)])]) ∧
     (∀ k v, ([("address.market", FVal.str "Paris"), ("beds", FVal.num 2),
             ("bedrooms", FVal.num 1)] : FilterList) = [(k, v)] →
        buildMatchFilter (some [("address.market", FVal.str "Paris"), ("beds", FVal.num 2),
             ("bedrooms", FVal.num 1)]) = some (MatchFilter.eq k v)) ∧
     (1 < ([("address.market", FVal.str "Paris"), ("beds", FVal.num 2),
             ("bedrooms", FVal.num 1)] : FilterList).length →
        buildMatchFilter (some [("address.market", FVal.str "Paris"), ("beds", FVal.num 2),
             ("bedrooms", FVal.num 1)]) =
          some (MatchFilter.conj [("address.market", FVal.str "Paris"), ("beds", FVal.num 2),
             ("bedrooms", FVal.num 1)])) ∧
     (∀ st2 q2, reuseCond st2 q2 = false → extract_filters q2 = none →
        (retrieve_aggregate_facts wOk st2 q2).trace.searchCalls.map
          (fun c => c.query.filter) = [none])) :=
  ⟨by decide,
   vector_search_filter_combination wOk stEmpty "beds=2 bedrooms=1 market=Paris"
     [("address.market", FVal.str "Paris"), ("beds", FVal.num 2), ("bedrooms", FVal.num 1)]
     (by decide)⟩

/-- C8: every vector-search call the coordinator issues uses a result cap
of 5, a candidate pool of 400 and a similarity threshold of 0.50, and
every snippet `search_similar_documents` returns comes from a store
candidate whose score is at least the threshold (candidates below it are
discarded). -/
theorem search_call_defaults (w : World) (st : RState) (q : String) :
    (∀ c ∈ (retrieve_aggregate_facts w st q).trace.searchCalls,
        c.query.limit = 5 ∧ c.query.numCandidates = 400 ∧ c.minScore = mkRat 1 2) ∧
    (∀ (aggregate : VectorSearchQuery → List ScoredDoc) (index : String)
        (qv : List ℚ) (filters : Option FilterList) (s : String),
        s ∈ search_similar_documents aggregate index qv filters 5 400 (mkRat 1 2) →
        ∃ d ∈ aggregate (mkPipelineQuery index qv 5 400 filters),
          d.content = s ∧ mkRat 1 2 ≤ scoreOf d) := by
  constructor
  · intro c hc
    by_cases hru : reuseCond st q = true
    · have hempty : (retrieve_aggregate_facts w st q).trace.searchCalls = [] := by
        unfold retrieve_aggregate_facts
        rw [hru]
        simp only [if_true]
        split <;> rfl
      rw [hempty] at hc
      simp at hc
    · rw [Bool.not_eq_true] at hru
      have ht := (retrieve_fresh_trace_eq w st q hru).2.1
      rw [ht] at hc
      cases hext : extract_filters q with
      | none =>
          rw [hext, runFresh_none_filters] at hc
          simp only [List.mem_singleton] at hc
          subst hc
          exact ⟨rfl, rfl, rfl⟩
      | some p =>
          rcases p with ⟨fl, b⟩
          cases b with
          | true =>
              rw [hext] at hc
              simp [runFresh] at hc
          | false =>
              rw [hext, runFresh_some_false] at hc
              simp only [List.mem_singleton] at hc
              subst hc
              exact ⟨rfl, rfl, rfl⟩
  · intro aggregate index qv filters s hs
    unfold search_similar_documents at hs
    obtain ⟨d, hd, hds⟩ := List.mem_map.mp hs
    obtain ⟨hmem, hscore⟩ := List.mem_filter.mp hd
    exact ⟨d, hmem, hds, of_decide_eq_true hscore⟩

theorem search_call_defaults_witness :
    ((⟨⟨"vector_index", [], 5, 400, none⟩, mkRat 1 2⟩ : SearchCall) ∈
        (retrieve_aggregate_facts wOk stEmpty "hello").trace.searchCalls ∧
      ((⟨⟨"vector_index", [], 5, 400, none⟩, mkRat 1 2⟩ : SearchCall).query.limit = 5 ∧
       (⟨⟨"vector_index", [], 5, 400, none⟩, mkRat 1 2⟩ : SearchCall).query.numCandidates = 400 ∧
       (⟨⟨"vector_index", [], 5, 400, none⟩, mkRat 1 2⟩ : SearchCall).minScore = mkRat 1 2)) ∧
    ("doc1" ∈ search_similar_documents wOk.aggregate "vector_index" [] none 5 400 (mkRat 1 2) ∧
      ∃ d ∈ wOk.aggregate (mkPipelineQuery "vector_index" [] 5 400 none),
        d.content = "doc1" ∧ mkRat 1 2 ≤ scoreOf d) :=
  ⟨⟨by decide, (search_call_defaults wOk stEmpty "hello").1 _ (by decide)⟩,
   ⟨by decide,
    (search_call_defaults wOk stEmpty "hello").2 wOk.aggregate "vector_index" [] none
      "doc1" (by decide)⟩⟩
